import Mathlib

/-!
Shallow embedding of the MediaPlayer event bridge from
`Framework/react-native-tizen/Libraries/MediaPlayer/MediaPlayer.tizen.js`.

The bridge is a singleton: it keeps a subscription registry
(`_subscriptions`, a JS `Map` from event name to a plain object mapping
handler to native listener handle), a source `uri`, a known `duration`, and
a boolean guard `_isPreparedEventReg`.  Commands (`play`, `pause`, `stop`,
`seekTo`, `init`, `deInit`) are forwarded to the native module
`MediaPlayerModule`; listener registration goes through the native event
emitter (`MediaPlayerEventEmitter.addListener` returning a handle whose
`remove()` unregisters it).

The embedding models:
  * JS `Map` and plain objects as association lists with first-match
    lookup, in-place replacement and first-occurrence deletion (a real JS
    `Map`/object never holds a duplicate key, so first-occurrence
    operations coincide with the JS semantics);
  * handlers by identity (`Handler`), with a distinguished identity for
    the internal duration-capturing closure registered by `init`;
  * the native side as a trace of calls (`NCall`): backend commands to
    `MediaPlayerModule` plus emitter `addListener` / handle `remove`
    interactions;
  * event delivery (`emit`) as the list of (handler, decorated payload)
    invocations the emitter would perform, in registration order.
-/

/-- The value found in a payload's `ret_code` field, as seen by
`Number.isInteger`: a JS integer, some other defined value (float, string,
object, boolean), or absent / `undefined`. -/
inductive RetCode where
  | undefinedV : RetCode
  | intV : Int → RetCode
  | otherV : RetCode
deriving DecidableEq

/-- The state of the payload's `EVENT_RESULT` property: never assigned,
assigned the `undefined` value (out-of-range array index), or assigned a
symbolic result string. -/
inductive ResultField where
  | absent : ResultField
  | undef : ResultField
  | str : String → ResultField
deriving DecidableEq

/-- An event payload: the `ret_code` field, the `EVENT_RESULT` field, and
an opaque residue standing for every other property of the payload. -/
structure EventData where
  ret_code : RetCode
  EVENT_RESULT : ResultField
  rest : Nat
deriving DecidableEq

/-- `EVENT_RESULTS` from the source, verbatim: a 19-entry array indexed by
`ret_code`. -/
def EVENT_RESULTS : List String :=
  [ "PLAYER_OK",
    "PLAYER_INVALID_URI",
    "PLAYER_INVALID_SOURCE",
    "PLAYER_DUPLICATED_URI",
    "PLAYER_INSTANCE_DISPOSED",
    "PLAYER_INVALID_STATE",
    "PLAYER_INVALID_INSTANCE_OR_POLICY",
    "PLAYER_NONE_POLICY",
    "PLAYER_FEATURE_NOT_SUPPORTED",
    "PLAYER_VALUE_IN_USE",
    "PLAYER_WRONG_RANGE_RATE",
    "PLAYER_POSITION_OUT_OF_RANGE",
    "PLAYER_SUBTITLE_EMPTY_PATH",
    "PLAYER_SUBTITLE_FILE_PATH_NOT_EXIST",
    "PLAYER_SUBTITLE_NULL_PATH",
    "PLAYER_SUBTITLE_FORMAT_NOT_SUPPORTED",
    "PLAYER_PLAYBACK_INTERRUPTED",
    "PLAYER_ERROR_OCCURED",
    "PLAYER_TO_BE_EXTENDED" ]

/-- JS array indexing `xs[n]` for an integer index: `undefined` (`none`)
when out of range, the element otherwise. -/
def jsArrayGet (xs : List String) (n : Int) : Option String :=
  if n < 0 then none else xs.get? n.toNat

/-- The payload decoration performed inside the wrapper that
`addEventListener` registers with the emitter:
`Number.isInteger(eventData.ret_code) && (eventData.EVENT_RESULT = EVENT_RESULTS[eventData.ret_code])`. -/
def decorate (e : EventData) : EventData :=
  match e.ret_code with
  | RetCode.intV n =>
      { e with EVENT_RESULT :=
          match jsArrayGet EVENT_RESULTS n with
          | some s => ResultField.str s
          | none => ResultField.undef }
  | _ => e

/-- `MEDIA_PLAYER_EVENTS` from the source: the map from user-facing event
name to the wire-level event identifier; an unknown name indexes the object
to `undefined` (`none`). -/
def MEDIA_PLAYER_EVENTS : String → Option String
  | "idle" => some "idle"
  | "preparing" => some "preparing"
  | "prepared" => some "prepared"
  | "started" => some "started"
  | "paused" => some "paused"
  | "updateplayinfo" => some "updatePlayInfo"
  | "seeking" => some "seeking"
  | "seeked" => some "seeked"
  | "playbackcomplete" => some "playbackComplete"
  | "playbackinterrupted" => some "playbackInterrupted"
  | "erroroccurred" => some "errorOccurred"
  | "exceptionhappened" => some "exceptionHappened"
  | _ => none

/-- A handler identity: an application handler, or the internal
duration-capturing closure that `init` registers for `prepared`. -/
inductive Handler where
  | user : Nat → Handler
  | internal : Handler
deriving DecidableEq

/-- A listener registered with the native event emitter: its handle id, the
wire event identifier it was registered under (`undefined` for an unknown
event name), and the application handler its wrapper closes over. -/
structure NativeListener where
  id : Nat
  eventId : Option String
  handler : Handler
deriving DecidableEq

/-- A native interaction: a backend command on `MediaPlayerModule`, or an
emitter interaction (`addListener` / subscription `remove()`). -/
inductive NCall where
  | init : String → NCall
  | play : NCall
  | pause : NCall
  | stop : NCall
  | seekTo : Int → NCall
  | deInit : NCall
  | emAdd : Option String → Handler → NCall
  | emRemove : Nat → NCall
deriving DecidableEq

/-- Whether a native interaction is a backend command on
`MediaPlayerModule` (as opposed to an emitter interaction). -/
def isBackendCall : NCall → Bool
  | NCall.emAdd _ _ => false
  | NCall.emRemove _ => false
  | _ => true

/-- First-match lookup in an association list: JS `Map.get` / object
property read. -/
def assocGet {α β : Type} [DecidableEq α] : List (α × β) → α → Option β
  | [], _ => none
  | (k', v) :: rest, k => if k' = k then some v else assocGet rest k

/-- In-place replace-or-append: JS `Map.set` / object property assignment
(an existing key keeps its position; a new key is appended). -/
def assocSet {α β : Type} [DecidableEq α] : List (α × β) → α → β → List (α × β)
  | [], k, v => [(k, v)]
  | (k', v') :: rest, k, v =>
      if k' = k then (k, v) :: rest else (k', v') :: assocSet rest k v

/-- First-occurrence deletion: JS `Map.delete` / `delete obj[k]`. -/
def assocDelete {α β : Type} [DecidableEq α] : List (α × β) → α → List (α × β)
  | [], _ => []
  | (k', v') :: rest, k =>
      if k' = k then rest else (k', v') :: assocDelete rest k

/-- The plain object stored under one event name: handler to native
listener handle id. -/
abbrev Bucket := List (Handler × Nat)

/-- `_subscriptions`: the JS `Map` from event name to bucket. -/
abbrev Registry := List (String × Bucket)

/-- The MediaPlayer singleton state together with the native emitter's
listener list and a counter supplying fresh listener handle ids. -/
structure State where
  uri : Option String
  duration : Option Int
  _isPreparedEventReg : Bool
  subs : Registry
  listeners : List NativeListener
  nextId : Nat
deriving DecidableEq

/-- The state at module load: `uri` and the guard flag are undefined,
`duration` is `null`, the registry and the emitter are empty. -/
def initialState : State :=
  { uri := none, duration := none, _isPreparedEventReg := false,
    subs := [], listeners := [], nextId := 0 }

/-- JS truthiness of the stored `uri` (`undefined`, `null` and the empty
string are falsy). -/
def uriTruthy : Option String → Bool
  | none => false
  | some u => u ≠ ""

/-- JS truthiness of the stored `duration` (`null` and `0` are falsy). -/
def durTruthy : Option Int → Bool
  | none => false
  | some d => d ≠ 0

namespace MediaPlayer

/-- `addEventListener(eventName, handler)`: registers a wrapper for
`handler` with the emitter under `MEDIA_PLAYER_EVENTS[eventName]`, then
stores the handle in the registry bucket for `eventName` (creating the
bucket when absent, overwriting any handle already stored for `handler`).
Returns the new state and the native interactions performed. -/
def addEventListener (s : State) (eventName : String) (handler : Handler) :
    State × List NCall :=
  let eid := MEDIA_PLAYER_EVENTS eventName
  let lid := s.nextId
  let listeners := (assocGet s.subs eventName).getD []
  ({ s with
      listeners := s.listeners ++ [{ id := lid, eventId := eid, handler := handler }],
      subs := assocSet s.subs eventName (assocSet listeners handler lid),
      nextId := lid + 1 },
   [NCall.emAdd eid handler])

/-- `removeEventListener(eventName, handler)`: returns immediately when the
registry has no bucket for `eventName`; otherwise calls `remove()` on the
stored handle when one exists for `handler`, then deletes the whole bucket
when the bucket held exactly one key, and otherwise deletes only
`handler`'s key and stores the bucket back. -/
def removeEventListener (s : State) (eventName : String) (handler : Handler) :
    State × List NCall :=
  match assocGet s.subs eventName with
  | none => (s, [])
  | some listeners =>
      let removal :=
        match assocGet listeners handler with
        | some lid =>
            ({ s with listeners := s.listeners.filter (fun l => decide (l.id ≠ lid)) },
             [NCall.emRemove lid])
        | none => (s, [])
      if listeners.length = 1 then
        ({ removal.1 with subs := assocDelete removal.1.subs eventName }, removal.2)
      else
        ({ removal.1 with
            subs := assocSet removal.1.subs eventName (assocDelete listeners handler) },
         removal.2)

/-- `init(source)`: stores the resolved uri (the asset-resolution
collaborator is external, so the argument is the already-resolved value;
`null`/`undefined` is `none`), resets `duration`, and when the uri is
truthy forwards `init(uri)` to the backend and registers the internal
`prepared` duration listener unless `_isPreparedEventReg` is already set,
setting the flag afterwards. -/
def init (s : State) (source : Option String) : State × List NCall :=
  let s0 := { s with uri := source, duration := none }
  if uriTruthy source then
    let reg :=
      if s0._isPreparedEventReg then (s0, [])
      else addEventListener s0 "prepared" Handler.internal
    ({ reg.1 with _isPreparedEventReg := true },
     NCall.init (source.getD "") :: reg.2)
  else
    (s0, [])

/-- `play()`: `this.uri && MediaPlayerModule.play()`. -/
def play (s : State) : State × List NCall :=
  if uriTruthy s.uri then (s, [NCall.play]) else (s, [])

/-- `pause()`: `this.uri && MediaPlayerModule.pause()`. -/
def pause (s : State) : State × List NCall :=
  if uriTruthy s.uri then (s, [NCall.pause]) else (s, [])

/-- `stop()`: `this.uri && MediaPlayerModule.stop()`. -/
def stop (s : State) : State × List NCall :=
  if uriTruthy s.uri then (s, [NCall.stop]) else (s, [])

/-- The time actually forwarded by `seekTo`: the lower clamp
`time > 0 ? time : 0` always applies; the upper clamp applies only when
the stored duration is truthy (non-`null` and non-zero). -/
def seekClampTime (dur : Option Int) (time : Int) : Int :=
  let t := if time > 0 then time else 0
  match dur with
  | some d => if d = 0 then t else if t < d then t else d
  | none => t

/-- `seekTo(time)`: clamps as above, then forwards only when the uri is
truthy. -/
def seekTo (s : State) (time : Int) : State × List NCall :=
  if uriTruthy s.uri then (s, [NCall.seekTo (seekClampTime s.duration time)])
  else (s, [])

/-- `position()`: `return this.uri && MediaPlayerModule.position` — a
property read, never a backend command; the falsy uri itself (modelled
`none`) is returned when no uri is set. -/
def position (s : State) (nativePosition : Int) : Option Int :=
  if uriTruthy s.uri then some nativePosition else none

/-- The handle ids held anywhere in the registry, in iteration order. -/
def registryIds (subs : Registry) : List Nat :=
  subs.flatMap (fun nb => nb.2.map (fun hl => hl.2))

/-- `_unregisterEvents()`: iterates every bucket of `_subscriptions`,
calling `remove()` on each stored handle, then clears the map. -/
def _unregisterEvents (s : State) : State × List NCall :=
  let ids := registryIds s.subs
  ({ s with
      subs := [],
      listeners := ids.foldl (fun acc lid => acc.filter (fun l => decide (l.id ≠ lid))) s.listeners },
   ids.map NCall.emRemove)

/-- `destroy()`: `_unregisterEvents()`, then `MediaPlayerModule.stop()` and
`MediaPlayerModule.deInit()`, unconditionally. -/
def destroy (s : State) : State × List NCall :=
  let u := _unregisterEvents s
  (u.1, u.2 ++ [NCall.stop, NCall.deInit])

end MediaPlayer

/-- Event delivery: emitting wire event `eid` with payload `e` invokes, in
registration order, every emitter listener registered under `eid`; each
wrapper decorates the payload and calls its handler. -/
def emit (s : State) (eid : String) (e : EventData) : List (Handler × EventData) :=
  (s.listeners.filter (fun l => decide (l.eventId = some eid))).map
    (fun l => (l.handler, decorate e))

/-- Whether the registry currently holds an entry for the pair
(event name, handler). -/
def pairRegistered (s : State) (eventName : String) (handler : Handler) : Bool :=
  match assocGet s.subs eventName with
  | none => false
  | some b => (assocGet b handler).isSome

/-- Well-formedness that every state reachable through the JS `Map` and
object operations satisfies: no duplicate event-name key in the registry
and no duplicate handler key in any bucket. -/
def subsWF (subs : Registry) : Prop :=
  (subs.map Prod.fst).Nodup ∧ ∀ nb ∈ subs, (nb.2.map Prod.fst).Nodup

instance (subs : Registry) : Decidable (subsWF subs) := by
  unfold subsWF; infer_instance

/-- A concrete event payload used by witnesses. -/
def payload0 : EventData :=
  { ret_code := RetCode.intV 0, EVENT_RESULT := ResultField.absent, rest := 0 }
/-- A concrete state with a truthy uri and known duration 100, used by
witnesses. -/
def stateDur100 : State :=
  { initialState with uri := some "a", duration := some 100 }
/-- A state holding exactly one registered handler for `started`, used by
counterexamples and witnesses. -/
def stateOneHandler : State :=
  { initialState with
      subs := [("started", [(Handler.user 0, 5)])]
      listeners := [{ id := 5, eventId := some "started", handler := Handler.user 0 }]
      nextId := 6 }
/-- A state holding two registered handlers for `started`, used by
witnesses. -/
def stateTwoHandlers : State :=
  { initialState with
      subs := [("started", [(Handler.user 0, 5), (Handler.user 1, 6)])]
      listeners :=
        [{ id := 5, eventId := some "started", handler := Handler.user 0 },
         { id := 6, eventId := some "started", handler := Handler.user 1 }]
      nextId := 7 }
/-- The number of emitter registrations of the internal duration-capturing
`prepared` listener in a trace of native interactions. -/
def countPrepReg (calls : List NCall) : Nat :=
  (calls.filter
    (fun c => decide (c = NCall.emAdd (some "prepared") Handler.internal))).length
/-- A sequence of `init` calls, accumulating the native interactions. -/
def initSeq : State → List (Option String) → State × List NCall
  | s, [] => (s, [])
  | s, src :: rest =>
      let r := MediaPlayer.init s src
      let r2 := initSeq r.1 rest
      (r2.1, r.2 ++ r2.2)
/-- A state whose prepared-listener guard flag is already set. -/
def stateFlagTrue : State :=
  { initialState with _isPreparedEventReg := true }

section AssocLemmas

variable {α β : Type} [DecidableEq α]

theorem assocGet_set_self (m : List (α × β)) (k : α) (v : β) :
    assocGet (assocSet m k v) k = some v := by
  induction m with
  | nil => simp [assocSet, assocGet]
  | cons p rest ih =>
      obtain ⟨pk, pv⟩ := p
      by_cases hp : pk = k
      · simp [assocSet, assocGet, hp]
      · simp [assocSet, assocGet, hp, ih]

theorem assocGet_set_ne (m : List (α × β)) (k k' : α) (v : β) (h : k' ≠ k) :
    assocGet (assocSet m k v) k' = assocGet m k' := by
  have hkk : ¬ k = k' := fun hk => h hk.symm
  induction m with
  | nil => simp [assocSet, assocGet, hkk]
  | cons p rest ih =>
      obtain ⟨pk, pv⟩ := p
      by_cases hp : pk = k
      · have hp' : ¬ pk = k' := by rw [hp]; exact hkk
        simp [assocSet, assocGet, hp, hkk, hp']
      · by_cases hp' : pk = k'
        · simp [assocSet, assocGet, hp, hp', h]
        · simp [assocSet, assocGet, hp, hp', ih]

theorem assocSet_get_self (m : List (α × β)) (k : α) (v : β)
    (h : assocGet m k = some v) : assocSet m k v = m := by
  induction m with
  | nil => simp [assocGet] at h
  | cons p rest ih =>
      obtain ⟨pk, pv⟩ := p
      by_cases hp : pk = k
      · simp only [assocGet, if_pos hp] at h
        cases h
        simp [assocSet, hp]
      · simp only [assocGet, if_neg hp] at h
        simp [assocSet, hp, ih h]

theorem assocGet_delete_ne (m : List (α × β)) (k k' : α) (h : k' ≠ k) :
    assocGet (assocDelete m k) k' = assocGet m k' := by
  induction m with
  | nil => simp [assocDelete]
  | cons p rest ih =>
      obtain ⟨pk, pv⟩ := p
      by_cases hp : pk = k
      · have hkk : ¬ k = k' := fun hk => h hk.symm
        simp [assocDelete, assocGet, hp, hkk]
      · by_cases hp' : pk = k'
        · simp [assocDelete, assocGet, hp, hp', h]
        · simp [assocDelete, assocGet, hp, hp', ih]

theorem assocGet_mem_keys (m : List (α × β)) (k : α) (v : β)
    (h : assocGet m k = some v) : k ∈ m.map Prod.fst := by
  induction m with
  | nil => simp [assocGet] at h
  | cons p rest ih =>
      obtain ⟨pk, pv⟩ := p
      by_cases hp : pk = k
      · simp [hp]
      · simp only [assocGet, if_neg hp] at h
        simp [ih h]

theorem assocGet_eq_none_of_not_mem (m : List (α × β)) (k : α)
    (h : k ∉ m.map Prod.fst) : assocGet m k = none := by
  induction m with
  | nil => simp [assocGet]
  | cons p rest ih =>
      obtain ⟨pk, pv⟩ := p
      simp only [List.map_cons, List.mem_cons] at h
      push_neg at h
      have hp : ¬ pk = k := fun hk => h.1 hk.symm
      simp [assocGet, hp, ih h.2]

theorem assocGet_delete_self (m : List (α × β)) (k : α)
    (h : (m.map Prod.fst).Nodup) : assocGet (assocDelete m k) k = none := by
  induction m with
  | nil => simp [assocDelete, assocGet]
  | cons p rest ih =>
      obtain ⟨pk, pv⟩ := p
      simp only [List.map_cons, List.nodup_cons] at h
      by_cases hp : pk = k
      · simp only [assocDelete, if_pos hp]
        exact assocGet_eq_none_of_not_mem rest k (hp ▸ h.1)
      · simp [assocDelete, assocGet, hp, ih h.2]

theorem assocSet_keys_mem (m : List (α × β)) (k a : α) (v : β)
    (h : a ∈ (assocSet m k v).map Prod.fst) : a ∈ m.map Prod.fst ∨ a = k := by
  induction m with
  | nil =>
      right
      simpa [assocSet] using h
  | cons p rest ih =>
      obtain ⟨pk, pv⟩ := p
      by_cases hp : pk = k
      · simp only [assocSet, if_pos hp, List.map_cons, List.mem_cons] at h
        rcases h with h | h
        · exact Or.inr h
        · exact Or.inl (by simp [h])
      · simp only [assocSet, if_neg hp, List.map_cons, List.mem_cons] at h
        rcases h with h | h
        · exact Or.inl (by simp [h])
        · rcases ih h with h' | h'
          · exact Or.inl (by simp [h'])
          · exact Or.inr h'

theorem assocSet_keys_nodup (m : List (α × β)) (k : α) (v : β)
    (h : (m.map Prod.fst).Nodup) : ((assocSet m k v).map Prod.fst).Nodup := by
  induction m with
  | nil => simp [assocSet]
  | cons p rest ih =>
      obtain ⟨pk, pv⟩ := p
      simp only [List.map_cons, List.nodup_cons] at h
      by_cases hp : pk = k
      · simp only [assocSet, if_pos hp, List.map_cons, List.nodup_cons]
        exact ⟨hp ▸ h.1, h.2⟩
      · simp only [assocSet, if_neg hp, List.map_cons, List.nodup_cons]
        refine ⟨fun hmem => ?_, ih h.2⟩
        rcases assocSet_keys_mem rest k pk v hmem with h' | h'
        · exact h.1 h'
        · exact hp h'

theorem assocGet_some_ne_nil (m : List (α × β)) (k : α) (v : β)
    (h : assocGet m k = some v) : m ≠ [] := by
  intro hnil
  subst hnil
  simp [assocGet] at h

theorem assocGet_some_two_le_length (m : List (α × β)) (k1 k2 : α) (v1 v2 : β)
    (hne : k1 ≠ k2) (h1 : assocGet m k1 = some v1) (h2 : assocGet m k2 = some v2) :
    2 ≤ m.length := by
  cases m with
  | nil => simp [assocGet] at h1
  | cons p rest =>
      obtain ⟨pk, pv⟩ := p
      have hrest : rest ≠ [] := by
        by_cases hp : pk = k1
        · have hp2 : ¬ pk = k2 := fun hk => hne (hp.symm.trans hk)
          simp only [assocGet, if_neg hp2] at h2
          exact assocGet_some_ne_nil rest k2 v2 h2
        · simp only [assocGet, if_neg hp] at h1
          exact assocGet_some_ne_nil rest k1 v1 h1
      have : 0 < rest.length := List.length_pos.mpr hrest
      simp only [List.length_cons]
      omega

theorem length_one_assocGet (m : List (α × β)) (k : α) (v : β)
    (hlen : m.length = 1) (h : assocGet m k = some v) : m = [(k, v)] := by
  cases m with
  | nil => simp at hlen
  | cons p rest =>
      obtain ⟨pk, pv⟩ := p
      cases rest with
      | nil =>
          by_cases hp : pk = k
          · simp only [assocGet, if_pos hp] at h
            cases h
            simp [hp]
          · simp [assocGet, hp] at h
      | cons q t => simp at hlen

end AssocLemmas

/-- C1 counterexample: the source table `EVENT_RESULTS` has 19 entries, so
`ret_code` 17 decodes to `"PLAYER_ERROR_OCCURED"`, not
`"PLAYER_TO_BE_EXTENDED"` as the claim states. -/
theorem retCode17_mismatch :
    decorate { ret_code := RetCode.intV 17, EVENT_RESULT := ResultField.absent, rest := 0 } =
      { ret_code := RetCode.intV 17, EVENT_RESULT := ResultField.str "PLAYER_ERROR_OCCURED",
        rest := 0 } ∧
    "PLAYER_ERROR_OCCURED" ≠ "PLAYER_TO_BE_EXTENDED" := by
  exact ⟨by decide, by decide⟩

/-- C1 amended: the decoder maps `ret_code` 0 to `"PLAYER_OK"` and
`ret_code` 17 to `"PLAYER_ERROR_OCCURED"` (18 is `"PLAYER_TO_BE_EXTENDED"`),
and a payload whose `ret_code` is absent or not an integer passes through
unchanged with no symbolic field added. -/
theorem decorate_spec_amended (e : EventData) :
    (e.ret_code = RetCode.intV 0 →
      decorate e = { e with EVENT_RESULT := ResultField.str "PLAYER_OK" }) ∧
    (e.ret_code = RetCode.intV 17 →
      decorate e = { e with EVENT_RESULT := ResultField.str "PLAYER_ERROR_OCCURED" }) ∧
    (e.ret_code = RetCode.intV 18 →
      decorate e = { e with EVENT_RESULT := ResultField.str "PLAYER_TO_BE_EXTENDED" }) ∧
    ((∀ n : Int, e.ret_code ≠ RetCode.intV n) → decorate e = e) := by
  refine ⟨fun h => ?_, fun h => ?_, fun h => ?_, fun h => ?_⟩
  · simp [decorate, h]; rfl
  · simp [decorate, h]; rfl
  · simp [decorate, h]; rfl
  · cases hc : e.ret_code with
    | intV n => exact absurd hc (h n)
    | undefinedV => simp [decorate, hc]
    | otherV => simp [decorate, hc]

/-- C1 witness: the amended decoding at concrete payloads. -/
theorem decorate_spec_amended_witness :
    decorate { ret_code := RetCode.intV 0, EVENT_RESULT := ResultField.absent, rest := 3 } =
      { ret_code := RetCode.intV 0, EVENT_RESULT := ResultField.str "PLAYER_OK", rest := 3 } ∧
    decorate { ret_code := RetCode.intV 17, EVENT_RESULT := ResultField.absent, rest := 3 } =
      { ret_code := RetCode.intV 17, EVENT_RESULT := ResultField.str "PLAYER_ERROR_OCCURED",
        rest := 3 } ∧
    decorate { ret_code := RetCode.otherV, EVENT_RESULT := ResultField.absent, rest := 3 } =
      { ret_code := RetCode.otherV, EVENT_RESULT := ResultField.absent, rest := 3 } := by
  refine ⟨(decorate_spec_amended _).1 rfl, (decorate_spec_amended _).2.1 rfl,
    (decorate_spec_amended _).2.2.2 (fun n h => by cases h)⟩

/-- C5 counterexample: `ret_code` 18 lies outside the range [0, 17] yet the
decoder does set a symbolic result, namely `"PLAYER_TO_BE_EXTENDED"`. -/
theorem retCode18_decoded :
    decorate { ret_code := RetCode.intV 18, EVENT_RESULT := ResultField.absent, rest := 0 } =
      { ret_code := RetCode.intV 18, EVENT_RESULT := ResultField.str "PLAYER_TO_BE_EXTENDED",
        rest := 0 } ∧
    ¬ ((0:Int) ≤ 18 ∧ (18:Int) ≤ 17) := by
  exact ⟨by decide, by decide⟩

/-- C5 amended: for an integer `ret_code` outside the table range [0, 18],
the array lookup is `undefined`, so no symbolic name is attached — the
`EVENT_RESULT` property is assigned the `undefined` value. -/
theorem decorate_out_of_range_amended (e : EventData) (n : Int)
    (hc : e.ret_code = RetCode.intV n) (hout : n < 0 ∨ 18 < n) :
    decorate e = { e with EVENT_RESULT := ResultField.undef } := by
  rcases hout with h | h
  · simp [decorate, hc, jsArrayGet, h]
  · have hn : ¬ n < 0 := by omega
    have hlen : EVENT_RESULTS.length ≤ n.toNat := by
      simp only [EVENT_RESULTS, List.length_cons, List.length_nil]
      omega
    have hg : EVENT_RESULTS[n.toNat]? = none := List.getElem?_eq_none hlen
    simp [decorate, hc, jsArrayGet, hn, hg]

/-- C5 witness: the amended out-of-range behavior at `ret_code` 19. -/
theorem decorate_out_of_range_amended_witness :
    decorate { ret_code := RetCode.intV 19, EVENT_RESULT := ResultField.absent, rest := 0 } =
      { ret_code := RetCode.intV 19, EVENT_RESULT := ResultField.undef, rest := 0 } :=
  decorate_out_of_range_amended _ 19 rfl (Or.inr (by decide))

/-- C6: with no truthy source uri set (in particular in the initial state),
`play`, `pause`, `stop` and `seekTo` forward no native call and leave the
state unchanged, and `position` returns the falsy sentinel instead of the
native position. -/
theorem no_uri_commands_noop (s : State) (x : Int) (p : Int)
    (h : uriTruthy s.uri = false) :
    MediaPlayer.play s = (s, []) ∧ MediaPlayer.pause s = (s, []) ∧
    MediaPlayer.stop s = (s, []) ∧ MediaPlayer.seekTo s x = (s, []) ∧
    MediaPlayer.position s p = none := by
  simp [MediaPlayer.play, MediaPlayer.pause, MediaPlayer.stop, MediaPlayer.seekTo,
    MediaPlayer.position, h]

/-- C6 witness: the guard at the initial state. -/
theorem no_uri_commands_noop_witness :
    MediaPlayer.play initialState = (initialState, []) ∧
    MediaPlayer.pause initialState = (initialState, []) ∧
    MediaPlayer.stop initialState = (initialState, []) ∧
    MediaPlayer.seekTo initialState 7 = (initialState, []) ∧
    MediaPlayer.position initialState 3 = none :=
  no_uri_commands_noop initialState 7 3 (by decide)

/-- C8 counterexample: with a known duration of 0 (falsy in JS) the upper
clamp is skipped, so `seekTo(5)` forwards 5, which is not within [0, 0]. -/
theorem seekTo_zero_duration_no_clamp :
    (MediaPlayer.seekTo { initialState with uri := some "a", duration := some 0 } 5).2 =
      [NCall.seekTo 5] ∧
    ¬ ((0:Int) ≤ 5 ∧ (5:Int) ≤ 0) := by
  exact ⟨by decide, by decide⟩

/-- C8 amended: whenever the known duration is positive (hence truthy),
`seekTo` forwards the time clamped to [0, duration]; with duration 0 or
unknown only the lower clamp applies. -/
theorem seekTo_clamp_amended (s : State) (t d : Int)
    (hu : uriTruthy s.uri = true) (hd : s.duration = some d) (hpos : 0 < d) :
    (MediaPlayer.seekTo s t).2 = [NCall.seekTo (min (max t 0) d)] ∧
    0 ≤ min (max t 0) d ∧ min (max t 0) d ≤ d := by
  have hdz : ¬ d = 0 := by omega
  have hclamp : MediaPlayer.seekClampTime s.duration t = min (max t 0) d := by
    simp only [MediaPlayer.seekClampTime, hd, if_neg hdz, min_def, max_def]
    split_ifs <;> omega
  exact ⟨by simp [MediaPlayer.seekTo, hu, hclamp],
    le_min (le_max_right t 0) hpos.le, min_le_right _ d⟩

/-- C8 witness: the three specified seeks with known duration 100. -/
theorem seekTo_clamp_amended_witness :
    (MediaPlayer.seekTo stateDur100 (-5)).2 = [NCall.seekTo 0] ∧
    (MediaPlayer.seekTo stateDur100 150).2 = [NCall.seekTo 100] ∧
    (MediaPlayer.seekTo stateDur100 50).2 = [NCall.seekTo 50] := by
  have h1 := (seekTo_clamp_amended stateDur100 (-5) 100 (by decide) rfl (by decide)).1
  have h2 := (seekTo_clamp_amended stateDur100 150 100 (by decide) rfl (by decide)).1
  have h3 := (seekTo_clamp_amended stateDur100 50 100 (by decide) rfl (by decide)).1
  norm_num at h1 h2 h3
  exact ⟨h1, h2, h3⟩

theorem assocGet_mem {α β : Type} [DecidableEq α] (m : List (α × β)) (k : α) (v : β)
    (h : assocGet m k = some v) : (k, v) ∈ m := by
  induction m with
  | nil => simp [assocGet] at h
  | cons p rest ih =>
      obtain ⟨pk, pv⟩ := p
      by_cases hp : pk = k
      · simp only [assocGet, if_pos hp] at h
        cases h
        simp [hp]
      · simp only [assocGet, if_neg hp] at h
        simp [ih h]

theorem assocDelete_get_none {α β : Type} [DecidableEq α] (m : List (α × β)) (k : α)
    (h : assocGet m k = none) : assocDelete m k = m := by
  induction m with
  | nil => simp [assocDelete]
  | cons p rest ih =>
      obtain ⟨pk, pv⟩ := p
      by_cases hp : pk = k
      · simp [assocGet, hp] at h
      · simp only [assocGet, if_neg hp] at h
        simp [assocDelete, hp, ih h]

theorem subsWF_bucket_nodup (subs : Registry) (E : String) (h : subsWF subs) :
    (((assocGet subs E).getD []).map Prod.fst).Nodup := by
  cases hb : assocGet subs E with
  | none => simp
  | some b =>
      simp only [Option.getD_some]
      exact h.2 (E, b) (assocGet_mem subs E b hb)

theorem addEventListener_eq (s : State) (E : String) (H : Handler) :
    MediaPlayer.addEventListener s E H =
      ({ s with
          listeners := s.listeners ++
            [{ id := s.nextId, eventId := MEDIA_PLAYER_EVENTS E, handler := H }],
          subs := assocSet s.subs E (assocSet ((assocGet s.subs E).getD []) H s.nextId),
          nextId := s.nextId + 1 },
       [NCall.emAdd (MEDIA_PLAYER_EVENTS E) H]) := rfl

theorem removeEventListener_found (s : State) (E : String) (H : Handler) (b : Bucket)
    (lid : Nat) (hb : assocGet s.subs E = some b) (hH : assocGet b H = some lid) :
    MediaPlayer.removeEventListener s E H =
      if b.length = 1 then
        ({ s with
            listeners := s.listeners.filter (fun l => decide (l.id ≠ lid))
            subs := assocDelete s.subs E }, [NCall.emRemove lid])
      else
        ({ s with
            listeners := s.listeners.filter (fun l => decide (l.id ≠ lid))
            subs := assocSet s.subs E (assocDelete b H) }, [NCall.emRemove lid]) := by
  simp [MediaPlayer.removeEventListener, hb, hH]

theorem removeEventListener_not_found (s : State) (E : String) (H : Handler) (b : Bucket)
    (hb : assocGet s.subs E = some b) (hH : assocGet b H = none) :
    MediaPlayer.removeEventListener s E H =
      if b.length = 1 then ({ s with subs := assocDelete s.subs E }, [])
      else ({ s with subs := assocSet s.subs E (assocDelete b H) }, []) := by
  simp [MediaPlayer.removeEventListener, hb, hH]

theorem emit_mem_handler (s : State) (w : String) (e : EventData) (pr : Handler × EventData)
    (h : pr ∈ emit s w e) :
    ∃ l, l ∈ s.listeners ∧ l.eventId = some w ∧ l.handler = pr.1 := by
  simp only [emit, List.mem_map, List.mem_filter, decide_eq_true_eq] at h
  obtain ⟨l, ⟨hl, hw⟩, hpr⟩ := h
  exact ⟨l, hl, hw, by rw [← hpr]⟩

theorem emit_mem_of_listener (s : State) (w : String) (e : EventData) (l : NativeListener)
    (hl : l ∈ s.listeners) (hw : l.eventId = some w) :
    (l.handler, decorate e) ∈ emit s w e := by
  simp only [emit, List.mem_map]
  exact ⟨l, List.mem_filter.mpr ⟨hl, by simp [hw]⟩, rfl⟩

theorem filter_ne_id_of_all_ne (xs : List NativeListener) (n : Nat)
    (h : ∀ l ∈ xs, l.id ≠ n) :
    xs.filter (fun l => decide (l.id ≠ n)) = xs :=
  List.filter_eq_self.mpr (fun l hl => by simpa using h l hl)

theorem mem_foldl_filter (ids : List Nat) (acc : List NativeListener) (l : NativeListener)
    (h : l ∈ ids.foldl (fun a i => a.filter (fun x => decide (x.id ≠ i))) acc) :
    l ∈ acc ∧ ∀ i ∈ ids, l.id ≠ i := by
  induction ids generalizing acc with
  | nil => simpa using h
  | cons i rest ih =>
      simp only [List.foldl_cons] at h
      obtain ⟨hmem, hrest⟩ := ih _ h
      have hm := List.mem_filter.mp hmem
      refine ⟨hm.1, fun j hj => ?_⟩
      rcases List.mem_cons.mp hj with hji | hj'
      · subst hji
        simpa using hm.2
      · exact hrest j hj'

/-- C2 counterexample: removing an unregistered handler from an event whose
bucket holds exactly one other handler deletes the whole bucket from the
registry, so the registry is not left unchanged. -/
theorem removeUnknownHandler_changes_registry :
    (MediaPlayer.removeEventListener stateOneHandler "started" (Handler.user 1)).1.subs = [] ∧
    stateOneHandler.subs ≠ [] := by
  exact ⟨by decide, by decide⟩

/-- C2 amended: removing a handler that is not registered for an event that
has a bucket raises nothing, removes no native listener and forwards no
native call; the registry is unchanged when the bucket does not hold
exactly one handler, but when it holds exactly one (necessarily other)
handler the whole bucket entry for the event is deleted. -/
theorem removeUnknownHandler_amended (s : State) (E : String) (H : Handler) (b : Bucket)
    (hb : assocGet s.subs E = some b) (hH : assocGet b H = none) :
    (MediaPlayer.removeEventListener s E H).2 = [] ∧
    (MediaPlayer.removeEventListener s E H).1.listeners = s.listeners ∧
    (b.length ≠ 1 → MediaPlayer.removeEventListener s E H = (s, [])) ∧
    (b.length = 1 →
      MediaPlayer.removeEventListener s E H = ({ s with subs := assocDelete s.subs E }, [])) := by
  have hrem := removeEventListener_not_found s E H b hb hH
  by_cases hlen : b.length = 1
  · rw [hrem, if_pos hlen]
    exact ⟨rfl, rfl, fun h => absurd hlen h, fun _ => rfl⟩
  · rw [hrem, if_neg hlen]
    have hbd : assocDelete b H = b := assocDelete_get_none b H hH
    have hss : assocSet s.subs E (assocDelete b H) = s.subs := by
      rw [hbd]
      exact assocSet_get_self s.subs E b hb
    have hstate : ({ s with subs := assocSet s.subs E (assocDelete b H) } : State) = s := by
      rw [hss]
    rw [hstate]
    exact ⟨rfl, rfl, fun _ => rfl, fun h => absurd h hlen⟩

/-- C2 witness: with two handlers registered for `started`, removing an
unknown third handler is a complete no-op. -/
theorem removeUnknownHandler_amended_witness :
    MediaPlayer.removeEventListener stateTwoHandlers "started" (Handler.user 2) =
      (stateTwoHandlers, []) :=
  (removeUnknownHandler_amended stateTwoHandlers "started" (Handler.user 2)
    [(Handler.user 0, 5), (Handler.user 1, 6)] rfl rfl).2.2.1 (by decide)

/-- C3: from a state with no native listener for (E, H) (and a well-formed
registry and fresh handle counter), `addEventListener(E, H)` followed by
`removeEventListener(E, H)` leaves no registry entry for the pair, and a
native event then emitted on E's wire id does not invoke H. -/
theorem addRemove_cancel (s : State) (E : String) (H : Handler) (w : String) (e : EventData)
    (hw : MEDIA_PLAYER_EVENTS E = some w)
    (hwf : subsWF s.subs)
    (hfresh : ∀ l ∈ s.listeners, l.id ≠ s.nextId)
    (hnoH : ∀ l ∈ s.listeners, ¬ (l.eventId = some w ∧ l.handler = H)) :
    pairRegistered
      (MediaPlayer.removeEventListener (MediaPlayer.addEventListener s E H).1 E H).1 E H
      = false ∧
    ∀ pr ∈ emit (MediaPlayer.removeEventListener (MediaPlayer.addEventListener s E H).1 E H).1 w e,
      pr.1 ≠ H := by
  have hadd := addEventListener_eq s E H
  set b0 : Bucket := (assocGet s.subs E).getD [] with hb0def
  set b1 : Bucket := assocSet b0 H s.nextId with hb1def
  have hs1 : (MediaPlayer.addEventListener s E H).1 =
      { s with
          listeners := s.listeners ++
            [{ id := s.nextId, eventId := some w, handler := H }]
          subs := assocSet s.subs E b1
          nextId := s.nextId + 1 } := by
    rw [hadd, hw]
  have hget : assocGet (MediaPlayer.addEventListener s E H).1.subs E = some b1 := by
    rw [hs1]
    exact assocGet_set_self s.subs E b1
  have hH1 : assocGet b1 H = some s.nextId := assocGet_set_self b0 H s.nextId
  have hrem := removeEventListener_found (MediaPlayer.addEventListener s E H).1 E H b1
    s.nextId hget hH1
  have hfilter : (MediaPlayer.addEventListener s E H).1.listeners.filter
      (fun l => decide (l.id ≠ s.nextId)) = s.listeners := by
    rw [hs1]
    show (s.listeners ++
        [({ id := s.nextId, eventId := some w, handler := H } : NativeListener)]).filter
        (fun l => decide (l.id ≠ s.nextId)) = s.listeners
    rw [List.filter_append, filter_ne_id_of_all_ne s.listeners s.nextId hfresh]
    simp
  have hnodup1 : ((assocSet s.subs E b1).map Prod.fst).Nodup :=
    assocSet_keys_nodup s.subs E b1 hwf.1
  have hb0nodup : (b0.map Prod.fst).Nodup := subsWF_bucket_nodup s.subs E hwf
  have hb1nodup : (b1.map Prod.fst).Nodup := assocSet_keys_nodup b0 H s.nextId hb0nodup
  by_cases hlen : b1.length = 1
  · have hs2 : (MediaPlayer.removeEventListener (MediaPlayer.addEventListener s E H).1 E H).1 =
        { s with
            listeners := s.listeners
            subs := assocDelete (assocSet s.subs E b1) E
            nextId := s.nextId + 1 } := by
      rw [hrem, if_pos hlen, hfilter, hs1]
    rw [hs2]
    constructor
    · show pairRegistered _ E H = false
      simp only [pairRegistered]
      rw [assocGet_delete_self _ E hnodup1]
    · intro pr hpr
      obtain ⟨l, hl, hlw, hlh⟩ := emit_mem_handler _ w e pr hpr
      have hl' : l ∈ s.listeners := hl
      intro hEq
      exact hnoH l hl' ⟨hlw, hEq ▸ hlh⟩
  · have hs2 : (MediaPlayer.removeEventListener (MediaPlayer.addEventListener s E H).1 E H).1 =
        { s with
            listeners := s.listeners
            subs := assocSet (assocSet s.subs E b1) E (assocDelete b1 H)
            nextId := s.nextId + 1 } := by
      rw [hrem, if_neg hlen, hfilter, hs1]
    rw [hs2]
    constructor
    · show pairRegistered _ E H = false
      simp only [pairRegistered]
      rw [assocGet_set_self]
      show (assocGet (assocDelete b1 H) H).isSome = false
      rw [assocGet_delete_self b1 H hb1nodup]
      rfl
    · intro pr hpr
      obtain ⟨l, hl, hlw, hlh⟩ := emit_mem_handler _ w e pr hpr
      have hl' : l ∈ s.listeners := hl
      intro hEq
      exact hnoH l hl' ⟨hlw, hEq ▸ hlh⟩

/-- C3 witness: add then remove of a user handler for `started` on the
initial state; the handler pair is gone and a `started` event invokes
nothing keyed to it. -/
theorem addRemove_cancel_witness :
    pairRegistered
      (MediaPlayer.removeEventListener
        (MediaPlayer.addEventListener initialState "started" (Handler.user 0)).1
        "started" (Handler.user 0)).1 "started" (Handler.user 0) = false ∧
    (Handler.user 0, decorate payload0) ∉
      emit (MediaPlayer.removeEventListener
        (MediaPlayer.addEventListener initialState "started" (Handler.user 0)).1
        "started" (Handler.user 0)).1 "started" payload0 := by
  have h := addRemove_cancel initialState "started" (Handler.user 0) "started" payload0
    rfl (by decide) (by decide) (by decide)
  exact ⟨h.1, fun hmem => h.2 _ hmem rfl⟩

/-- C4: with two distinct handlers H1 and H2 registered for E (here: added
to a state holding neither), removing H1 deletes only H1's registry entry
and native listener; H2 stays registered and a subsequent native event on
E's wire id still invokes H2 and never H1. -/
theorem remove_preserves_other_handler (s : State) (E : String) (H1 H2 : Handler)
    (w : String) (e : EventData)
    (hw : MEDIA_PLAYER_EVENTS E = some w) (hne : H1 ≠ H2) (hwf : subsWF s.subs)
    (hfresh : ∀ l ∈ s.listeners, l.id ≠ s.nextId ∧ l.id ≠ s.nextId + 1)
    (hno1 : ∀ l ∈ s.listeners, ¬ (l.eventId = some w ∧ l.handler = H1)) :
    pairRegistered
      (MediaPlayer.removeEventListener
        (MediaPlayer.addEventListener
          (MediaPlayer.addEventListener s E H1).1 E H2).1 E H1).1 E H2 = true ∧
    pairRegistered
      (MediaPlayer.removeEventListener
        (MediaPlayer.addEventListener
          (MediaPlayer.addEventListener s E H1).1 E H2).1 E H1).1 E H1 = false ∧
    (H2, decorate e) ∈
      emit (MediaPlayer.removeEventListener
        (MediaPlayer.addEventListener
          (MediaPlayer.addEventListener s E H1).1 E H2).1 E H1).1 w e ∧
    ∀ pr ∈ emit (MediaPlayer.removeEventListener
        (MediaPlayer.addEventListener
          (MediaPlayer.addEventListener s E H1).1 E H2).1 E H1).1 w e,
      pr.1 ≠ H1 := by
  set n : Nat := s.nextId with hndef
  set b0 : Bucket := (assocGet s.subs E).getD [] with hb0def
  set b1 : Bucket := assocSet b0 H1 n with hb1def
  set b2 : Bucket := assocSet b1 H2 (n + 1) with hb2def
  set l1 : NativeListener := { id := n, eventId := some w, handler := H1 } with hl1def
  set l2 : NativeListener := { id := n + 1, eventId := some w, handler := H2 } with hl2def
  have hs1 : (MediaPlayer.addEventListener s E H1).1 =
      { s with
          listeners := s.listeners ++ [l1]
          subs := assocSet s.subs E b1
          nextId := n + 1 } := by
    rw [addEventListener_eq, hw]
  have hs2 : (MediaPlayer.addEventListener (MediaPlayer.addEventListener s E H1).1 E H2).1 =
      { s with
          listeners := (s.listeners ++ [l1]) ++ [l2]
          subs := assocSet (assocSet s.subs E b1) E b2
          nextId := n + 2 } := by
    rw [addEventListener_eq, hs1, hw]
    have hget1 : assocGet (assocSet s.subs E b1) E = some b1 := assocGet_set_self s.subs E b1
    simp only [hget1, Option.getD_some]
  have hget2 : assocGet (MediaPlayer.addEventListener
      (MediaPlayer.addEventListener s E H1).1 E H2).1.subs E = some b2 := by
    rw [hs2]
    exact assocGet_set_self (assocSet s.subs E b1) E b2
  have hH1get : assocGet b2 H1 = some n := by
    rw [hb2def]
    rw [assocGet_set_ne b1 H2 H1 (n + 1) hne]
    exact assocGet_set_self b0 H1 n
  have hH2get : assocGet b2 H2 = some (n + 1) := assocGet_set_self b1 H2 (n + 1)
  have hlen2 : ¬ b2.length = 1 := by
    have := assocGet_some_two_le_length b2 H1 H2 n (n + 1) hne hH1get hH2get
    omega
  have hrem := removeEventListener_found (MediaPlayer.addEventListener
    (MediaPlayer.addEventListener s E H1).1 E H2).1 E H1 b2 n hget2 hH1get
  have hfilter : (MediaPlayer.addEventListener
      (MediaPlayer.addEventListener s E H1).1 E H2).1.listeners.filter
      (fun l => decide (l.id ≠ n)) = s.listeners ++ [l2] := by
    rw [hs2]
    show ((s.listeners ++ [l1]) ++ [l2]).filter (fun l => decide (l.id ≠ n)) = s.listeners ++ [l2]
    rw [List.filter_append, List.filter_append,
      filter_ne_id_of_all_ne s.listeners n (fun l hl => (hfresh l hl).1)]
    simp [hl1def, hl2def]
  have hs3 : (MediaPlayer.removeEventListener
      (MediaPlayer.addEventListener
        (MediaPlayer.addEventListener s E H1).1 E H2).1 E H1).1 =
      { s with
          listeners := s.listeners ++ [l2]
          subs := assocSet (assocSet (assocSet s.subs E b1) E b2) E (assocDelete b2 H1)
          nextId := n + 2 } := by
    rw [hrem, if_neg hlen2, hfilter, hs2]
  have hb0nodup : (b0.map Prod.fst).Nodup := subsWF_bucket_nodup s.subs E hwf
  have hb1nodup : (b1.map Prod.fst).Nodup := assocSet_keys_nodup b0 H1 n hb0nodup
  have hb2nodup : (b2.map Prod.fst).Nodup := assocSet_keys_nodup b1 H2 (n + 1) hb1nodup
  rw [hs3]
  refine ⟨?_, ?_, ?_, ?_⟩
  · show pairRegistered _ E H2 = true
    simp only [pairRegistered]
    rw [assocGet_set_self]
    show (assocGet (assocDelete b2 H1) H2).isSome = true
    rw [assocGet_delete_ne b2 H1 H2 hne.symm, hH2get]
    rfl
  · show pairRegistered _ E H1 = false
    simp only [pairRegistered]
    rw [assocGet_set_self]
    show (assocGet (assocDelete b2 H1) H1).isSome = false
    rw [assocGet_delete_self b2 H1 hb2nodup]
    rfl
  · exact emit_mem_of_listener _ w e l2 (by simp) rfl
  · intro pr hpr
    obtain ⟨l, hl, hlw, hlh⟩ := emit_mem_handler _ w e pr hpr
    have hl' : l ∈ s.listeners ++ [l2] := hl
    intro hEq
    rcases List.mem_append.mp hl' with hmem | hmem
    · exact hno1 l hmem ⟨hlw, hEq ▸ hlh⟩
    · have hll2 : l = l2 := by simpa using hmem
      rw [hll2] at hlh
      apply hne
      rw [← hEq]
      exact hlh.symm

/-- C4 witness: two user handlers for `started` added to the initial state;
removing the first keeps the second registered and delivered. -/
theorem remove_preserves_other_handler_witness :
    pairRegistered
      (MediaPlayer.removeEventListener
        (MediaPlayer.addEventListener
          (MediaPlayer.addEventListener initialState "started" (Handler.user 0)).1
          "started" (Handler.user 1)).1 "started" (Handler.user 0)).1
      "started" (Handler.user 1) = true ∧
    pairRegistered
      (MediaPlayer.removeEventListener
        (MediaPlayer.addEventListener
          (MediaPlayer.addEventListener initialState "started" (Handler.user 0)).1
          "started" (Handler.user 1)).1 "started" (Handler.user 0)).1
      "started" (Handler.user 0) = false ∧
    (Handler.user 1, decorate payload0) ∈
      emit (MediaPlayer.removeEventListener
        (MediaPlayer.addEventListener
          (MediaPlayer.addEventListener initialState "started" (Handler.user 0)).1
          "started" (Handler.user 1)).1 "started" (Handler.user 0)).1
        "started" payload0 ∧
    (Handler.user 0, decorate payload0) ∉
      emit (MediaPlayer.removeEventListener
        (MediaPlayer.addEventListener
          (MediaPlayer.addEventListener initialState "started" (Handler.user 0)).1
          "started" (Handler.user 1)).1 "started" (Handler.user 0)).1
        "started" payload0 := by
  have h := remove_preserves_other_handler initialState "started" (Handler.user 0)
    (Handler.user 1) "started" payload0 rfl (by decide) (by decide) (by decide) (by decide)
  exact ⟨h.1, h.2.1, h.2.2.1, fun hmem => h.2.2.2 _ hmem rfl⟩

theorem filter_map_emRemove (ids : List Nat) :
    (ids.map NCall.emRemove).filter isBackendCall = [] := by
  induction ids with
  | nil => rfl
  | cons i rest ih => simp [isBackendCall, ih]

/-- C7: `destroy()` forwards exactly one `stop()` followed by one
`deInit()` to the backend regardless of state, empties the subscription
registry, and removes from the emitter every listener whose handle the
registry held. -/
theorem destroy_stop_deinit_and_clears (s : State) :
    (MediaPlayer.destroy s).2.filter isBackendCall = [NCall.stop, NCall.deInit] ∧
    (MediaPlayer.destroy s).1.subs = [] ∧
    ∀ l ∈ (MediaPlayer.destroy s).1.listeners, ∀ nb ∈ s.subs, ∀ hl ∈ nb.2, l.id ≠ hl.2 := by
  refine ⟨?_, rfl, ?_⟩
  · show ((MediaPlayer.registryIds s.subs).map NCall.emRemove ++
      [NCall.stop, NCall.deInit]).filter isBackendCall = [NCall.stop, NCall.deInit]
    rw [List.filter_append, filter_map_emRemove]
    rfl
  · intro l hl nb hnb hlp hlpmem
    have hmem := mem_foldl_filter (MediaPlayer.registryIds s.subs) s.listeners l hl
    apply hmem.2
    show hlp.2 ∈ MediaPlayer.registryIds s.subs
    simp only [MediaPlayer.registryIds, List.mem_flatMap]
    exact ⟨nb, hnb, List.mem_map.mpr ⟨hlp, hlpmem, rfl⟩⟩

/-- C7 witness: destroy on a state with one live subscription. -/
theorem destroy_stop_deinit_and_clears_witness :
    (MediaPlayer.destroy stateOneHandler).2.filter isBackendCall =
      [NCall.stop, NCall.deInit] ∧
    (MediaPlayer.destroy stateOneHandler).1.subs = [] ∧
    ({ id := 5, eventId := some "started", handler := Handler.user 0 } : NativeListener) ∉
      (MediaPlayer.destroy stateOneHandler).1.listeners := by
  have h := destroy_stop_deinit_and_clears stateOneHandler
  refine ⟨h.1, h.2.1, fun hmem => ?_⟩
  exact h.2.2 _ hmem ("started", [(Handler.user 0, 5)]) (by decide)
    (Handler.user 0, 5) (by decide) rfl

theorem countPrepReg_append (a b : List NCall) :
    countPrepReg (a ++ b) = countPrepReg a + countPrepReg b := by
  simp [countPrepReg, List.filter_append]

theorem init_flag_true (s : State) (src : Option String)
    (h : s._isPreparedEventReg = true) :
    (MediaPlayer.init s src).1._isPreparedEventReg = true ∧
    countPrepReg (MediaPlayer.init s src).2 = 0 := by
  by_cases hu : uriTruthy src
  · simp [MediaPlayer.init, hu, h, countPrepReg]
  · simp [MediaPlayer.init, hu, h, countPrepReg]

theorem init_register (s : State) (src : Option String)
    (hf : s._isPreparedEventReg = false) (hu : uriTruthy src = true) :
    (MediaPlayer.init s src).1._isPreparedEventReg = true ∧
    countPrepReg (MediaPlayer.init s src).2 = 1 := by
  simp [MediaPlayer.init, hu, hf, MediaPlayer.addEventListener, countPrepReg,
    MEDIA_PLAYER_EVENTS]

theorem init_falsy (s : State) (src : Option String) (hu : uriTruthy src = false) :
    (MediaPlayer.init s src).1._isPreparedEventReg = s._isPreparedEventReg ∧
    countPrepReg (MediaPlayer.init s src).2 = 0 := by
  simp [MediaPlayer.init, hu, countPrepReg]

theorem initSeq_count (s : State) (srcs : List (Option String)) :
    countPrepReg (initSeq s srcs).2 ≤ 1 ∧
    (s._isPreparedEventReg = true → countPrepReg (initSeq s srcs).2 = 0) := by
  induction srcs generalizing s with
  | nil => simp [initSeq, countPrepReg]
  | cons src rest ih =>
      have hsplit : countPrepReg (initSeq s (src :: rest)).2 =
          countPrepReg (MediaPlayer.init s src).2 +
          countPrepReg (initSeq (MediaPlayer.init s src).1 rest).2 := by
        simp [initSeq, countPrepReg_append]
      cases hflag : s._isPreparedEventReg with
      | true =>
          have h1 := init_flag_true s src hflag
          have h2 := (ih (MediaPlayer.init s src).1).2 h1.1
          constructor
          · rw [hsplit, h1.2, h2]
            omega
          · intro _
            rw [hsplit, h1.2, h2]
      | false =>
          by_cases hu : uriTruthy src
          · have h1 := init_register s src hflag hu
            have h2 := (ih (MediaPlayer.init s src).1).2 h1.1
            constructor
            · rw [hsplit, h1.2, h2]
            · intro ht
              simp at ht
          · have h1 := init_falsy s src (by simpa using hu)
            have h2 := (ih (MediaPlayer.init s src).1).1
            constructor
            · rw [hsplit, h1.2]
              simpa using h2
            · intro ht
              simp at ht

/-- C9: the internal duration-capturing `prepared` listener is registered
with the emitter exactly once across two `init` calls with valid sources
started from an unset guard flag, at most once across any sequence of
`init` calls, `destroy` does not reset the guard flag, and an `init` on a
state whose flag is set registers it zero times. -/
theorem prepared_listener_once (s : State) (u1 u2 : String) (src : Option String)
    (srcs : List (Option String)) (h1 : u1 ≠ "") (h2 : u2 ≠ "")
    (hflag : s._isPreparedEventReg = false) :
    countPrepReg ((MediaPlayer.init s (some u1)).2 ++
      (MediaPlayer.init (MediaPlayer.init s (some u1)).1 (some u2)).2) = 1 ∧
    countPrepReg (initSeq s srcs).2 ≤ 1 ∧
    (∀ s' : State,
      (MediaPlayer.destroy s').1._isPreparedEventReg = s'._isPreparedEventReg) ∧
    (∀ s' : State, s'._isPreparedEventReg = true →
      countPrepReg (MediaPlayer.init s' src).2 = 0) := by
  have hu1 : uriTruthy (some u1) = true := by simpa [uriTruthy] using h1
  have hr1 := init_register s (some u1) hflag hu1
  have hr2 := init_flag_true (MediaPlayer.init s (some u1)).1 (some u2) hr1.1
  refine ⟨?_, (initSeq_count s srcs).1, fun s' => rfl,
    fun s' hf => (init_flag_true s' src hf).2⟩
  rw [countPrepReg_append, hr1.2, hr2.2]

/-- C9 witness: the guard at concrete states and sources. -/
theorem prepared_listener_once_witness :
    countPrepReg ((MediaPlayer.init initialState (some "a")).2 ++
      (MediaPlayer.init (MediaPlayer.init initialState (some "a")).1 (some "b")).2) = 1 ∧
    countPrepReg (initSeq initialState [some "a", some "b"]).2 ≤ 1 ∧
    (MediaPlayer.destroy stateOneHandler).1._isPreparedEventReg =
      stateOneHandler._isPreparedEventReg ∧
    countPrepReg (MediaPlayer.init stateFlagTrue (some "c")).2 = 0 := by
  have h := prepared_listener_once initialState "a" "b" (some "c")
    [some "a", some "b"] (by decide) (by decide) rfl
  exact ⟨h.1, h.2.1, h.2.2.1 stateOneHandler, h.2.2.2 stateFlagTrue rfl⟩

/-- C10: `destroy` leaves the stored uri and duration unchanged, so when a
truthy uri was set before `destroy`, the commands still forward to the
de-initialized backend afterwards. -/
theorem destroy_preserves_uri_duration (s : State) (t : Int) :
    (MediaPlayer.destroy s).1.uri = s.uri ∧
    (MediaPlayer.destroy s).1.duration = s.duration ∧
    (uriTruthy s.uri = true →
      (MediaPlayer.play (MediaPlayer.destroy s).1).2 = [NCall.play] ∧
      (MediaPlayer.pause (MediaPlayer.destroy s).1).2 = [NCall.pause] ∧
      (MediaPlayer.stop (MediaPlayer.destroy s).1).2 = [NCall.stop] ∧
      (MediaPlayer.seekTo (MediaPlayer.destroy s).1 t).2 =
        [NCall.seekTo (MediaPlayer.seekClampTime s.duration t)]) := by
  refine ⟨rfl, rfl, fun ht => ?_⟩
  have hu : uriTruthy (MediaPlayer.destroy s).1.uri = true := ht
  simp [MediaPlayer.play, MediaPlayer.pause, MediaPlayer.stop, MediaPlayer.seekTo, hu]
  rfl

/-- C10 witness: destroy on a state with uri and duration set still lets
commands through. -/
theorem destroy_preserves_uri_duration_witness :
    (MediaPlayer.destroy stateDur100).1.uri = stateDur100.uri ∧
    (MediaPlayer.destroy stateDur100).1.duration = stateDur100.duration ∧
    ((MediaPlayer.play (MediaPlayer.destroy stateDur100).1).2 = [NCall.play] ∧
     (MediaPlayer.pause (MediaPlayer.destroy stateDur100).1).2 = [NCall.pause] ∧
     (MediaPlayer.stop (MediaPlayer.destroy stateDur100).1).2 = [NCall.stop] ∧
     (MediaPlayer.seekTo (MediaPlayer.destroy stateDur100).1 42).2 =
       [NCall.seekTo (MediaPlayer.seekClampTime stateDur100.duration 42)]) := by
  have h := destroy_preserves_uri_duration stateDur100 42
  exact ⟨h.1, h.2.1, h.2.2 (by decide)⟩
